import Mathlib

/-!
Shallow embedding of the `xslx-utils` helper library.

The repository is a thin layer over a SheetJS-style worksheet object:
a worksheet is a single string-keyed JavaScript object whose keys are
cell addresses such as "A1" together with metadata keys such as
"!merges".  JavaScript numbers are modelled as rationals, and a slot of
the worksheet object stores an arbitrary JavaScript value: a primitive,
`undefined`, a cell object `{t, v, z}`, or the merge-list array.
Key presence is distinguished from a key that is explicitly set to
`undefined`, because `obj[k] = undefined` makes `k` enumerable.
-/

/-- A primitive JavaScript value that can appear in a cell's `v` field. -/
inductive JSPrim where
  | num (q : ℚ)
  | str (s : String)
  deriving DecidableEq, Repr

/-- A SheetJS cell object `{ t, v, z }`: type tag, raw value, number format.
A missing field and a field explicitly set to `undefined` behave identically
on read, so both are `none`. -/
structure Cell where
  t : Option String
  v : Option JSPrim
  z : Option String
  deriving DecidableEq, Repr

/-- A decoded cell coordinate `{ r, c }` as produced by `decode_cell`
(0-based; malformed strings can yield `-1`, hence `Int`). -/
structure CellAddr where
  r : Int
  c : Int
  deriving DecidableEq, Repr

/-- A decoded rectangle `{ s, e }` as produced by `decode_range`, also the
shape of a merge record pushed by `mergeCells`. -/
structure CellRange where
  s : CellAddr
  e : CellAddr
  deriving DecidableEq, Repr

/-- A JavaScript value that can be stored in a worksheet slot. -/
inductive JSValue where
  | prim (p : JSPrim)
  | undef
  | cellObj (c : Cell)
  | merges (l : List CellRange)
  deriving DecidableEq, Repr

/-- Reading the `v` field of a cell object: an absent field is `undefined`. -/
def jsOfOpt : Option JSPrim → JSValue
  | some p => JSValue.prim p
  | none => JSValue.undef

/-- A worksheet: one string-keyed object.  Key order is insertion order, as
in a JavaScript object; a key occurs at most once. -/
abbrev WorkSheet := List (String × JSValue)

/-- Property lookup that observes key *presence* (`k in obj`). -/
def wsLookup : WorkSheet → String → Option JSValue
  | [], _ => none
  | (k', v') :: rest, k => if k' = k then some v' else wsLookup rest k

/-- Property read `obj[k]`: an absent key reads as `undefined`. -/
def wsRead (ws : WorkSheet) (k : String) : JSValue :=
  (wsLookup ws k).getD JSValue.undef

/-- Property assignment `obj[k] = v`: overwrites in place, or appends a new
key. -/
def wsSet : WorkSheet → String → JSValue → WorkSheet
  | [], k, v => [(k, v)]
  | (k', v') :: rest, k, v =>
      if k' = k then (k, v) :: rest else (k', v') :: wsSet rest k v

/-- JavaScript truthiness of the values we model (`NaN` does not arise). -/
def jsTruthy : JSValue → Bool
  | JSValue.prim (JSPrim.num q) => q ≠ 0
  | JSValue.prim (JSPrim.str s) => s ≠ ""
  | JSValue.undef => false
  | JSValue.cellObj _ => true
  | JSValue.merges _ => true

/-- `typeof value === 'object'` for the values `setCellValue` can receive:
true exactly for objects (cell objects and arrays), false for primitives and
`undefined`. -/
def isObject : JSValue → Bool
  | JSValue.cellObj _ => true
  | JSValue.merges _ => true
  | _ => false

/-- The optional chain `cell?.v`: `undefined` unless the slot holds an
object with a `v` field, i.e. a cell object. -/
def slotV : JSValue → JSValue
  | JSValue.cellObj c => jsOfOpt c.v
  | _ => JSValue.undef

/-- Observation: does a slot hold a cell object (of any tag)? -/
def isCellObject : JSValue → Bool
  | JSValue.cellObj _ => true
  | _ => false

/-! ### The SheetJS address codec (external collaborator)

`decode_cell`, `encode_cell` and `decode_range` are the collaborator
library's A1-notation codec, modelled from its well-known semantics:
`decode_cell` folds over the characters, accumulating digits into the row
and capital letters into the bijective base-26 column, then subtracts one
from each; `encode_cell` is the inverse construction; `decode_range`
splits at the first `:` (absent one, start and end coincide). -/

/-- Character fold of SheetJS `decode_cell`: accumulate `(row, col)`. -/
def decodeCellStep (acc : Int × Int) (ch : Char) : Int × Int :=
  if '0' ≤ ch ∧ ch ≤ '9' then (10 * acc.1 + ((ch.toNat : Int) - 48), acc.2)
  else if 'A' ≤ ch ∧ ch ≤ 'Z' then (acc.1, 26 * acc.2 + ((ch.toNat : Int) - 64))
  else acc

/-- SheetJS `decode_cell`: "A1" becomes `{r := 0, c := 0}`. -/
def decode_cell (str : String) : CellAddr :=
  let rc := str.toList.foldl decodeCellStep ((0 : Int), (0 : Int))
  ⟨rc.1 - 1, rc.2 - 1⟩

/-- Split a character list at the first `:`, as `indexOf`/`slice` do. -/
def breakAtColon : List Char → List Char × Option (List Char)
  | [] => ([], none)
  | ch :: rest =>
      if ch = ':' then ([], some rest)
      else
        let br := breakAtColon rest
        (ch :: br.1, br.2)

/-- SheetJS `decode_range`: decode the parts before and after the first
colon; with no colon both corners decode the whole string. -/
def decode_range (str : String) : CellRange :=
  match breakAtColon str.toList with
  | (_, none) => ⟨decode_cell str, decode_cell str⟩
  | (a, some b) =>
      ⟨decode_cell (String.mk a), decode_cell (String.mk b)⟩

/-- Bijective base-26 digits of a positive column number, most significant
first.  The first argument is fuel, always called with `fuel ≥ n`, which
makes the definition structurally recursive (and kernel-computable). -/
def colLettersGo : Nat → Nat → List Char
  | _, 0 => []
  | 0, _ + 1 => []
  | fuel + 1, n + 1 => colLettersGo fuel (n / 26) ++ [Char.ofNat (65 + n % 26)]

/-- SheetJS `encode_col`: 0 becomes "A", 25 becomes "Z", 26 becomes "AA". -/
def encode_col (col : Int) : String :=
  if col < 0 then "" else String.mk (colLettersGo (col.toNat + 1) (col.toNat + 1))

/-- SheetJS `encode_row`: the 1-based row number printed in decimal. -/
def encode_row (row : Int) : String :=
  let m := row + 1
  if m < 0 then "-" ++ String.mk (Nat.toDigits 10 (-m).toNat)
  else String.mk (Nat.toDigits 10 m.toNat)

/-- SheetJS `encode_cell`: column letters followed by the row number. -/
def encode_cell (a : CellAddr) : String :=
  encode_col a.c ++ encode_row a.r

/-! ### Numeric helpers (src/unnamed/part_000) -/

/-- The absolute value, as `toFixed` splits the sign off first. -/
def jsAbs (q : ℚ) : ℚ := if q < 0 then -q else q

/-- Rounding used by JavaScript `toFixed`: the sign is split off first and
ties on the magnitude round to the larger candidate. -/
def jsRoundHalfUp (q : ℚ) : ℤ := (q + mkRat 1 2).floor

/-- `Number.prototype.toFixedFloat(digits)`: format to `digits` fractional
digits with `toFixed`, then parse back to a number. -/
def toFixedFloat (x : ℚ) (digits : Nat) : ℚ :=
  let n := jsRoundHalfUp (jsAbs x * (10 : ℚ) ^ digits)
  Rat.divInt ((if x < 0 then -1 else 1) * n) ((10 : ℤ) ^ digits)

/-- `toFixedFloat` with its `digits` argument omitted: the source declares
`function (digits = 35)`. -/
def toFixedFloatNoArg (x : ℚ) : ℚ := toFixedFloat x 35

/-- JavaScript truncation toward zero, used by the `%` remainder. -/
def jsTrunc (q : ℚ) : ℤ := if 0 ≤ q then q.floor else -(-q).floor

/-- JavaScript `value % 1`: the value minus its truncation toward zero. -/
def jsRem1 (q : ℚ) : ℚ := q - (jsTrunc q : ℚ)

/-! ### The six helpers of src/src/utils/cell-utils.ts -/

/-- Integer interval `[lo, hi]` as iterated by `for (i = lo; i <= hi; i++)`. -/
def intRange (lo hi : Int) : List Int :=
  (List.range (hi + 1 - lo).toNat).map (fun i => lo + Int.ofNat i)

/-- `getRangeValues`: decode the range, and for each row then each column of
the inclusive rectangle push `worksheet[encode_cell({r,c})]?.v`. -/
def getRangeValues (worksheet : WorkSheet) (range : String) : List (List JSValue) :=
  let decodedRange := decode_range range
  (intRange decodedRange.s.r decodedRange.e.r).map (fun row =>
    (intRange decodedRange.s.c decodedRange.e.c).map (fun col =>
      slotV (wsRead worksheet (encode_cell ⟨row, col⟩))))

/-- `getCellNumericValue`: 0 unless the slot holds a (truthy) cell object
tagged `'n'`, in which case its raw `v`. -/
def getCellNumericValue (worksheet : WorkSheet) (cellAddress : String) : JSValue :=
  match wsRead worksheet cellAddress with
  | JSValue.cellObj c =>
      if c.t = some "n" then jsOfOpt c.v else JSValue.prim (JSPrim.num 0)
  | _ => JSValue.prim (JSPrim.num 0)

/-- `getCellStringValue`: "" unless the slot holds a cell object tagged
`'s'`, in which case its raw `v`. -/
def getCellStringValue (worksheet : WorkSheet) (cellAddress : String) : JSValue :=
  match wsRead worksheet cellAddress with
  | JSValue.cellObj c =>
      if c.t = some "s" then jsOfOpt c.v else JSValue.prim (JSPrim.str "")
  | _ => JSValue.prim (JSPrim.str "")

/-- `setCellValue`: pass the value through verbatim when formatting is off
or the value is an object; otherwise build a tagged cell record, with the
whole/fractional number format policy of the source. -/
def setCellValue (worksheet : WorkSheet) (cellAddress : String)
    (value : JSValue) (formatCell : Bool) : WorkSheet :=
  if formatCell = false ∨ isObject value = true then
    wsSet worksheet cellAddress value
  else
    match value with
    | JSValue.undef => wsSet worksheet cellAddress (JSValue.cellObj ⟨none, none, none⟩)
    | JSValue.prim (JSPrim.str s) =>
        wsSet worksheet cellAddress (JSValue.cellObj ⟨some "s", some (JSPrim.str s), none⟩)
    | JSValue.prim (JSPrim.num q) =>
        let isWholeNumber : Bool := jsRem1 q = 0
        let fixedValue := if isWholeNumber then q else toFixedFloatNoArg q
        let format := if isWholeNumber then "0" else "0.0000"
        wsSet worksheet cellAddress
          (JSValue.cellObj ⟨some "n", some (JSPrim.num fixedValue), some format⟩)
    | other => wsSet worksheet cellAddress other

/-- `duplicateToSheet`: resolve `cellAddress := targetCellAddress ?? sourceCellAddress`,
read `sourceSheet[cellAddress]` and assign it to `targetSheet[cellAddress]`.
Only the target sheet is mutated; the updated target is returned. -/
def duplicateToSheet (sourceSheet targetSheet : WorkSheet)
    (sourceCellAddress : String) (targetCellAddress : Option String) : WorkSheet :=
  let cellAddress := targetCellAddress.getD sourceCellAddress
  let sourceCell := wsRead sourceSheet cellAddress
  wsSet targetSheet cellAddress sourceCell

/-- `mergeCells`: decode both corners, lazily create `worksheet['!merges']`
when it is falsy, and push the rectangle.  `none` models the `TypeError`
raised when the `'!merges'` slot holds a non-array. -/
def mergeCells (worksheet : WorkSheet) (startAddress endAddress : String) :
    Option WorkSheet :=
  let startCell := decode_cell startAddress
  let endCell := decode_cell endAddress
  let mergedRange : CellRange := ⟨⟨startCell.r, startCell.c⟩, ⟨endCell.r, endCell.c⟩⟩
  let ws1 :=
    if jsTruthy (wsRead worksheet "!merges") then worksheet
    else wsSet worksheet "!merges" (JSValue.merges [])
  match wsRead ws1 "!merges" with
  | JSValue.merges l => some (wsSet ws1 "!merges" (JSValue.merges (l ++ [mergedRange])))
  | _ => none

/-! ### Basic lemmas about the worksheet object model -/

section
attribute [local semireducible] Rat.add Rat.sub Rat.mul Rat.inv

theorem wsLookup_wsSet_self (ws : WorkSheet) (k : String) (v : JSValue) :
    wsLookup (wsSet ws k v) k = some v := by
  induction ws with
  | nil => simp [wsSet, wsLookup]
  | cons hd tl ih =>
      by_cases h : hd.1 = k
      · simp [wsSet, h, wsLookup]
      · simpa [wsSet, h, wsLookup] using ih

theorem wsLookup_wsSet_ne (ws : WorkSheet) (k : String) (v : JSValue)
    (k' : String) (h : k' ≠ k) :
    wsLookup (wsSet ws k v) k' = wsLookup ws k' := by
  induction ws with
  | nil => simp [wsSet, wsLookup, Ne.symm h]
  | cons hd tl ih =>
      obtain ⟨a, b⟩ := hd
      by_cases hk : a = k
      · subst hk
        simp [wsSet, wsLookup, Ne.symm h]
      · simp only [wsSet, wsLookup, if_neg hk]
        rw [ih]

theorem wsRead_wsSet_self (ws : WorkSheet) (k : String) (v : JSValue) :
    wsRead (wsSet ws k v) k = v := by
  simp [wsRead, wsLookup_wsSet_self]

theorem intRange_length (lo hi : Int) :
    (intRange lo hi).length = (hi + 1 - lo).toNat := by
  unfold intRange
  rw [List.length_map, List.length_range]

theorem intRange_getElem? (lo hi : Int) (i : Nat) (h : i < (hi + 1 - lo).toNat) :
    (intRange lo hi)[i]? = some (lo + Int.ofNat i) := by
  unfold intRange
  rw [List.getElem?_map, List.getElem?_range h]
  rfl

/-! ### Lemmas about the numeric helpers -/

theorem jsTrunc_of_den_eq_one (q : ℚ) (h : q.den = 1) : jsTrunc q = q.num := by
  have hfloor : q.floor = q.num := by
    rw [Rat.floor_def', h]
    simp
  have hnegfloor : (-q).floor = -q.num := by
    rw [Rat.floor_def', Rat.neg_num, Rat.neg_den, h]
    simp
  unfold jsTrunc
  by_cases h0 : 0 ≤ q
  · simp [h0, hfloor]
  · simp [h0, hnegfloor]

theorem jsRem1_eq_zero_iff (q : ℚ) : jsRem1 q = 0 ↔ q.den = 1 := by
  constructor
  · intro h
    unfold jsRem1 at h
    rw [sub_eq_zero] at h
    rw [h]
    exact Rat.den_intCast _
  · intro h
    unfold jsRem1
    rw [jsTrunc_of_den_eq_one q h, (Rat.den_eq_one_iff q).mp h, sub_self]

/-- Writing a number with formatting on always stores an `'n'`-tagged record,
whose value and format are decided by the `value % 1 === 0` whole-number
test. -/
theorem setCellValue_num_eq (ws : WorkSheet) (addr : String) (q : ℚ) :
    setCellValue ws addr (JSValue.prim (JSPrim.num q)) true
      = wsSet ws addr (JSValue.cellObj ⟨some "n",
          some (JSPrim.num (if jsRem1 q = 0 then q else toFixedFloatNoArg q)),
          some (if jsRem1 q = 0 then "0" else "0.0000")⟩) := by
  unfold setCellValue
  by_cases h : jsRem1 q = 0 <;> simp [isObject, h]

/-- With no (truthy) merge list present, `mergeCells` first installs an empty
list and then replaces it by the one-element list. -/
theorem mergeCells_eq_of_absent (ws : WorkSheet) (a b : String)
    (h : wsLookup ws "!merges" = none) :
    mergeCells ws a b = some (wsSet (wsSet ws "!merges" (JSValue.merges []))
      "!merges" (JSValue.merges [⟨decode_cell a, decode_cell b⟩])) := by
  have hread : wsRead ws "!merges" = JSValue.undef := by
    unfold wsRead; rw [h]; rfl
  unfold mergeCells
  rw [hread]
  simp [jsTruthy, wsRead_wsSet_self]

/-- With a merge list already stored, `mergeCells` appends to it in place. -/
theorem mergeCells_eq_of_merges (ws : WorkSheet) (a b : String) (l : List CellRange)
    (h : wsRead ws "!merges" = JSValue.merges l) :
    mergeCells ws a b = some (wsSet ws "!merges"
      (JSValue.merges (l ++ [⟨decode_cell a, decode_cell b⟩]))) := by
  unfold mergeCells
  simp [jsTruthy, h]

/-! ### The claims -/

/-- C1: the claim says `duplicateToSheet` reads the record stored at the
*source* address; the code instead reads the source sheet at the resolved
*target* address.  With "A1" holding a record in the source sheet and target
address "B1", the target slot receives `undefined`, not an equal-value copy
of the "A1" record. -/
theorem duplicateToSheet_misreads_source :
    duplicateToSheet [("A1", JSValue.cellObj ⟨some "n", some (JSPrim.num 1), none⟩)] []
        "A1" (some "B1") = [("B1", JSValue.undef)] ∧
    JSValue.undef ≠ JSValue.cellObj ⟨some "n", some (JSPrim.num 1), none⟩ :=
  ⟨by decide, by decide⟩

/-- C2 counterexample: `getRangeValues` performs no type-tag check.  On a
worksheet whose "A1" holds a string-tagged cell, the range "A1:A1" yields the
string value, not the `undefined` the claim requires for non-numeric tags. -/
theorem getRangeValues_tag_counterexample :
    getRangeValues [("A1", JSValue.cellObj ⟨some "s", some (JSPrim.str "x"), none⟩)] "A1:A1"
      = [[JSValue.prim (JSPrim.str "x")]] ∧
    [[JSValue.prim (JSPrim.str "x")]] ≠ [[JSValue.undef]] :=
  ⟨by decide, by decide⟩

/-- C2 (amended): `getRangeValues` returns one row per row of the inclusive
decoded rectangle, and the entry at row offset `i`, column offset `j` is the
stored cell object's raw `v` value — regardless of its type tag — or
`undefined` when the slot is absent or holds no cell object. -/
theorem getRangeValues_rect (ws : WorkSheet) (range : String) (i j : Nat)
    (hi : i < ((decode_range range).e.r + 1 - (decode_range range).s.r).toNat)
    (hj : j < ((decode_range range).e.c + 1 - (decode_range range).s.c).toNat) :
    (getRangeValues ws range).length
        = ((decode_range range).e.r + 1 - (decode_range range).s.r).toNat ∧
    ((getRangeValues ws range)[i]?.bind fun row => row[j]?)
      = some (slotV (wsRead ws (encode_cell
          ⟨(decode_range range).s.r + Int.ofNat i,
           (decode_range range).s.c + Int.ofNat j⟩))) := by
  unfold getRangeValues
  refine ⟨by rw [List.length_map, intRange_length], ?_⟩
  rw [List.getElem?_map, intRange_getElem? _ _ _ hi]
  simp only [Option.map_some', Option.some_bind]
  rw [List.getElem?_map, intRange_getElem? _ _ _ hj]
  rfl

/-- C2 witness: a 2×2 range over a sheet whose only cell is "A2". -/
theorem getRangeValues_rect_witness :
    (1 < ((decode_range "A1:B2").e.r + 1 - (decode_range "A1:B2").s.r).toNat ∧
     0 < ((decode_range "A1:B2").e.c + 1 - (decode_range "A1:B2").s.c).toNat) ∧
    ((getRangeValues [("A2", JSValue.cellObj ⟨some "n", some (JSPrim.num 3), none⟩)]
        "A1:B2")[1]?.bind fun row => row[0]?)
      = some (JSValue.prim (JSPrim.num 3)) :=
  ⟨⟨by decide, by decide⟩,
   ((getRangeValues_rect [("A2", JSValue.cellObj ⟨some "n", some (JSPrim.num 3), none⟩)]
      "A1:B2" 1 0 (by decide) (by decide)).2).trans (by decide)⟩

/-- C3 counterexample: with the formatting flag false, a plain string is
stored verbatim as the slot value; no cell record (of any tag) is created. -/
theorem setCellValue_unformatted_string_raw :
    wsRead (setCellValue [] "A1" (JSValue.prim (JSPrim.str "x")) false) "A1"
      = JSValue.prim (JSPrim.str "x") ∧
    isCellObject (wsRead (setCellValue [] "A1" (JSValue.prim (JSPrim.str "x")) false) "A1")
      = false :=
  ⟨by decide, by decide⟩

/-- C3 (amended): writing a string with the formatting flag true stores an
`'s'`-tagged record holding exactly that string; with the flag false the raw
string itself becomes the slot value. -/
theorem setCellValue_string (ws : WorkSheet) (addr s : String) :
    wsRead (setCellValue ws addr (JSValue.prim (JSPrim.str s)) true) addr
      = JSValue.cellObj ⟨some "s", some (JSPrim.str s), none⟩ ∧
    wsRead (setCellValue ws addr (JSValue.prim (JSPrim.str s)) false) addr
      = JSValue.prim (JSPrim.str s) := by
  constructor <;> simp [setCellValue, isObject, wsRead_wsSet_self]

/-- C4: the doc comment promises a default of 14 fractional digits, but the
code declares `digits = 35`.  At 1e-20 the two defaults differ: the code
returns 1e-20 unchanged while rounding to 14 digits returns 0. -/
theorem toFixedFloat_default_differs_from_14 :
    toFixedFloatNoArg (mkRat 1 (10 ^ 20)) = mkRat 1 (10 ^ 20) ∧
    toFixedFloat (mkRat 1 (10 ^ 20)) 14 = 0 ∧
    mkRat 1 (10 ^ 20) ≠ 0 :=
  ⟨by decide, by decide, by decide⟩

/-- C5: the typed readers are total; they default (0, resp. "") whenever no
`'n'`- (resp. `'s'`-) tagged cell object sits at the address, and return the
stored raw value when the tag matches. -/
theorem cell_readers_total_defaults (ws : WorkSheet) (addr : String) :
    ((¬ ∃ c : Cell, wsRead ws addr = JSValue.cellObj c ∧ c.t = some "n") →
        getCellNumericValue ws addr = JSValue.prim (JSPrim.num 0)) ∧
    (∀ c : Cell, wsRead ws addr = JSValue.cellObj c → c.t = some "n" →
        getCellNumericValue ws addr = jsOfOpt c.v) ∧
    ((¬ ∃ c : Cell, wsRead ws addr = JSValue.cellObj c ∧ c.t = some "s") →
        getCellStringValue ws addr = JSValue.prim (JSPrim.str "")) ∧
    (∀ c : Cell, wsRead ws addr = JSValue.cellObj c → c.t = some "s" →
        getCellStringValue ws addr = jsOfOpt c.v) := by
  unfold getCellNumericValue getCellStringValue
  refine ⟨?_, ?_, ?_, ?_⟩
  · intro hno
    cases hr : wsRead ws addr with
    | cellObj c => exact if_neg (fun ht => hno ⟨c, hr, ht⟩)
    | prim p => rfl
    | undef => rfl
    | merges l => rfl
  · intro c hr ht
    rw [hr]
    simp [ht]
  · intro hno
    cases hr : wsRead ws addr with
    | cellObj c => exact if_neg (fun ht => hno ⟨c, hr, ht⟩)
    | prim p => rfl
    | undef => rfl
    | merges l => rfl
  · intro c hr ht
    rw [hr]
    simp [ht]

/-- C5 witness: reading an empty worksheet. -/
theorem cell_readers_total_defaults_witness :
    getCellNumericValue [] "Z9" = JSValue.prim (JSPrim.num 0) ∧
    getCellStringValue [] "Z9" = JSValue.prim (JSPrim.str "") :=
  ⟨(cell_readers_total_defaults [] "Z9").1
      (fun h => match h with | ⟨_, hc, _⟩ => JSValue.noConfusion hc),
   (cell_readers_total_defaults [] "Z9").2.2.1
      (fun h => match h with | ⟨_, hc, _⟩ => JSValue.noConfusion hc)⟩

/-- C6: with formatting enabled, writing 5 stores an `'n'`-tagged record
with value 5 and format "0"; writing 5.25 stores value 5.25 and format
"0.0000"; in general integers get "0" and non-integers get "0.0000". -/
theorem setCellValue_number_formats (ws : WorkSheet) (addr : String) (q : ℚ) :
    wsRead (setCellValue ws addr (JSValue.prim (JSPrim.num 5)) true) addr
      = JSValue.cellObj ⟨some "n", some (JSPrim.num 5), some "0"⟩ ∧
    wsRead (setCellValue ws addr (JSValue.prim (JSPrim.num (mkRat 21 4))) true) addr
      = JSValue.cellObj ⟨some "n", some (JSPrim.num (mkRat 21 4)), some "0.0000"⟩ ∧
    (q.den = 1 →
      wsRead (setCellValue ws addr (JSValue.prim (JSPrim.num q)) true) addr
        = JSValue.cellObj ⟨some "n", some (JSPrim.num q), some "0"⟩) ∧
    (q.den ≠ 1 →
      wsRead (setCellValue ws addr (JSValue.prim (JSPrim.num q)) true) addr
        = JSValue.cellObj ⟨some "n", some (JSPrim.num (toFixedFloatNoArg q)), some "0.0000"⟩) := by
  refine ⟨?_, ?_, ?_, ?_⟩
  · rw [setCellValue_num_eq, wsRead_wsSet_self,
      if_pos (show jsRem1 (5 : ℚ) = 0 from by decide),
      if_pos (show jsRem1 (5 : ℚ) = 0 from by decide)]
  · rw [setCellValue_num_eq, wsRead_wsSet_self,
      if_neg (show ¬jsRem1 (mkRat 21 4) = 0 from by decide),
      if_neg (show ¬jsRem1 (mkRat 21 4) = 0 from by decide),
      show toFixedFloatNoArg (mkRat 21 4) = mkRat 21 4 from by decide]
  · intro h
    have hz := (jsRem1_eq_zero_iff q).mpr h
    rw [setCellValue_num_eq, wsRead_wsSet_self, if_pos hz, if_pos hz]
  · intro h
    have hz : ¬jsRem1 q = 0 := fun hh => h ((jsRem1_eq_zero_iff q).mp hh)
    rw [setCellValue_num_eq, wsRead_wsSet_self, if_neg hz, if_neg hz]

/-- C6 witness: the whole number 3 and the fraction 1/2. -/
theorem setCellValue_number_formats_witness :
    ((3 : ℚ).den = 1 ∧
      wsRead (setCellValue [] "A1" (JSValue.prim (JSPrim.num 3)) true) "A1"
        = JSValue.cellObj ⟨some "n", some (JSPrim.num 3), some "0"⟩) ∧
    ((mkRat 1 2).den ≠ 1 ∧
      wsRead (setCellValue [] "A1" (JSValue.prim (JSPrim.num (mkRat 1 2))) true) "A1"
        = JSValue.cellObj ⟨some "n", some (JSPrim.num (toFixedFloatNoArg (mkRat 1 2))),
            some "0.0000"⟩) :=
  ⟨⟨by decide, (setCellValue_number_formats [] "A1" 3).2.2.1 (by decide)⟩,
   ⟨by decide, (setCellValue_number_formats [] "A1" (mkRat 1 2)).2.2.2 (by decide)⟩⟩

/-- C7: writing an `'n'`-tagged record verbatim (formatting disabled) and
reading the same address back with the numeric reader returns the record's
raw value. -/
theorem setCellValue_numeric_roundtrip (ws : WorkSheet) (addr : String) (c : Cell)
    (h : c.t = some "n") :
    getCellNumericValue (setCellValue ws addr (JSValue.cellObj c) false) addr
      = jsOfOpt c.v := by
  have hset : setCellValue ws addr (JSValue.cellObj c) false
      = wsSet ws addr (JSValue.cellObj c) := by
    simp [setCellValue]
  rw [hset]
  unfold getCellNumericValue
  rw [wsRead_wsSet_self]
  simp [h]

/-- C7 witness: a concrete numeric record round-trips. -/
theorem setCellValue_numeric_roundtrip_witness :
    (⟨some "n", some (JSPrim.num 7), none⟩ : Cell).t = some "n" ∧
    getCellNumericValue
        (setCellValue [] "B2" (JSValue.cellObj ⟨some "n", some (JSPrim.num 7), none⟩) false) "B2"
      = JSValue.prim (JSPrim.num 7) :=
  ⟨rfl, setCellValue_numeric_roundtrip [] "B2" ⟨some "n", some (JSPrim.num 7), none⟩ rfl⟩

/-- C8: on a worksheet with no `'!merges'` key, merging "A1" to "B2" creates
the list and leaves exactly the rectangle (0,0)–(1,1); in general, with a
merge list present, `mergeCells` appends the decoded rectangle, preserving
all previously registered merges. -/
theorem mergeCells_appends (ws : WorkSheet) :
    (wsLookup ws "!merges" = none →
      ∃ ws1, mergeCells ws "A1" "B2" = some ws1 ∧
        wsRead ws1 "!merges" = JSValue.merges [⟨⟨0, 0⟩, ⟨1, 1⟩⟩]) ∧
    (∀ (l : List CellRange) (startAddress endAddress : String),
      wsRead ws "!merges" = JSValue.merges l →
      ∃ ws1, mergeCells ws startAddress endAddress = some ws1 ∧
        wsRead ws1 "!merges"
          = JSValue.merges (l ++ [⟨decode_cell startAddress, decode_cell endAddress⟩])) := by
  constructor
  · intro h
    refine ⟨_, mergeCells_eq_of_absent ws "A1" "B2" h, ?_⟩
    rw [wsRead_wsSet_self]
    decide
  · intro l a b h
    exact ⟨_, mergeCells_eq_of_merges ws a b l h, wsRead_wsSet_self _ _ _⟩

/-- C8 witness: merging on the empty worksheet. -/
theorem mergeCells_appends_witness :
    wsLookup [] "!merges" = none ∧
    ∃ ws1, mergeCells [] "A1" "B2" = some ws1 ∧
      wsRead ws1 "!merges" = JSValue.merges [⟨⟨0, 0⟩, ⟨1, 1⟩⟩] :=
  ⟨rfl, (mergeCells_appends []).1 rfl⟩

/-- C9: when the consulted source slot reads as `undefined`, the copy still
happens: the target key becomes present, holding `undefined`, instead of the
target being left untouched — and no error is raised (the operation is
total). -/
theorem duplicateToSheet_absent_source (sourceSheet targetSheet : WorkSheet)
    (sourceCellAddress : String) (targetCellAddress : Option String)
    (h : wsRead sourceSheet (targetCellAddress.getD sourceCellAddress) = JSValue.undef) :
    wsLookup (duplicateToSheet sourceSheet targetSheet sourceCellAddress targetCellAddress)
        (targetCellAddress.getD sourceCellAddress) = some JSValue.undef := by
  unfold duplicateToSheet
  rw [wsLookup_wsSet_self, h]

/-- C9 witness: copying a missing cell between two empty sheets. -/
theorem duplicateToSheet_absent_source_witness :
    wsRead [] "A1" = JSValue.undef ∧
    wsLookup (duplicateToSheet [] [] "A1" none) "A1" = some JSValue.undef :=
  ⟨rfl, duplicateToSheet_absent_source [] [] "A1" none rfl⟩

/-- C10 counterexample: the merge list lives in the same key space as the
cells, so `setCellValue` at address "!merges" replaces the merge list with a
cell record, contradicting the unconditional "'!merges' is unchanged" part of
the claim. -/
theorem setCellValue_merges_key_clobbered :
    wsRead (setCellValue [("!merges", JSValue.merges [])] "!merges"
        (JSValue.prim (JSPrim.num 5)) true) "!merges"
      = JSValue.cellObj ⟨some "n", some (JSPrim.num 5), some "0"⟩ ∧
    wsRead [("!merges", JSValue.merges [])] "!merges" = JSValue.merges [] ∧
    JSValue.cellObj ⟨some "n", some (JSPrim.num 5), some "0"⟩ ≠ JSValue.merges [] :=
  ⟨by decide, by decide, by decide⟩

/-- C10 (amended): `setCellValue` changes at most the entry at the written
key: every entry at any other key — including `'!merges'`, whenever it is not
itself the written address — is unchanged. -/
theorem setCellValue_frame (ws : WorkSheet) (addr : String) (value : JSValue)
    (formatCell : Bool) (k : String) (h : k ≠ addr) :
    wsLookup (setCellValue ws addr value formatCell) k = wsLookup ws k := by
  unfold setCellValue
  split
  · exact wsLookup_wsSet_ne ws addr value k h
  · split <;> exact wsLookup_wsSet_ne ws addr _ k h

/-- C10 witness: writing "A1" leaves the entry at "B1" alone. -/
theorem setCellValue_frame_witness :
    "B1" ≠ "A1" ∧
    wsLookup (setCellValue [("B1", JSValue.undef)] "A1" (JSValue.prim (JSPrim.num 1)) true) "B1"
      = wsLookup [("B1", JSValue.undef)] "B1" :=
  ⟨by decide,
   setCellValue_frame [("B1", JSValue.undef)] "A1" (JSValue.prim (JSPrim.num 1)) true "B1"
     (by decide)⟩

end
